import Mathlib

/-!
Shallow embedding of the execution orchestration core of the Nexus
backend (`backend/app/services/execution_service.py` and
`backend/app/routers/execution.py`), together with proofs of the
specification claims about it.

Machine conventions used throughout:
* Python `str` fields that may be SQL `NULL` are `Option String`
  (`none` = null); Python truthiness of such a field is `pyTruthy`.
* The Supabase tables `execution_runs`, `execution_logs`,
  `feature_nodes`, `feature_edges` are lists of records.
* The sandbox filesystem is a partial map `String → Option String`
  from paths to file contents.
* The bounded `while iteration <= max_iterations` build/verify loop is
  compiled to structural recursion on the remaining iteration budget
  (`fuel = maxIterations + 1 - iteration`), which is exactly the number
  of times the loop guard can still succeed.
-/

namespace Nexus

/-- The closed set of execution-run statuses used by the state machine. -/
inductive Status where
  | queued
  | cloning
  | planning
  | testing
  | awaiting_approval
  | building
  | verifying
  | pushing
  | done
  | failed
deriving DecidableEq, Repr

/-- The closed language variant returned by `_detect_feature_language`. -/
inductive Language where
  | python
  | typescript
  | java
deriving DecidableEq, Repr

/-- Python truthiness of a nullable string: `None` and `""` are falsy. -/
def pyTruthy : Option String → Bool
  | none => false
  | some s => !(s == "")

/-- Python `str.endswith`, computed on the underlying character lists so
that concrete instances reduce in the kernel. -/
def strEndsWith (s suff : String) : Bool :=
  List.isSuffixOf suff.data s.data

/-- Count of files ending in `.py`, mirroring the `py` counter of the
inner `_counts` helper of `_detect_feature_language`. -/
def countPy (files : List String) : Nat :=
  (files.filter (fun f => strEndsWith f ".py")).length

/-- Count of files ending in `.ts`/`.tsx`/`.js`/`.jsx`, mirroring the
`ts` counter of `_counts`. -/
def countTs (files : List String) : Nat :=
  (files.filter (fun f =>
    strEndsWith f ".ts" || strEndsWith f ".tsx" || strEndsWith f ".js" ||
      strEndsWith f ".jsx")).length

/-- Count of files ending in `.java`, mirroring the `java` counter of
`_counts`. -/
def countJava (files : List String) : Nat :=
  (files.filter (fun f => strEndsWith f ".java")).length

/-- Embedding of `_detect_feature_language(impacted_files, file_tree)`:
strict comparison chain over the impacted-file counts, then the
`>=` fallback chain over the whole file tree. -/
def detectFeatureLanguage (impacted_files : List String) (file_tree : List String) :
    Language :=
  let py := countPy impacted_files
  let ts := countTs impacted_files
  let java := countJava impacted_files
  if py > ts && py > java then Language.python
  else if ts > py && ts > java then Language.typescript
  else if java > py && java > ts then Language.java
  else
    let py := countPy file_tree
    let ts := countTs file_tree
    let java := countJava file_tree
    if py ≥ ts && py ≥ java then Language.python
    else if ts ≥ py && ts ≥ java then Language.typescript
    else Language.java

/-- The extension-match count of one language over a file list. -/
def langCount (files : List String) : Language → Nat
  | Language.python => countPy files
  | Language.typescript => countTs files
  | Language.java => countJava files

/-- The two languages other than the given one, in the fixed order
python, typescript, java. -/
def otherLanguages : Language → List Language
  | Language.python => [Language.typescript, Language.java]
  | Language.typescript => [Language.python, Language.java]
  | Language.java => [Language.python, Language.typescript]

/-- Spec-side formulation of the language detector, written from the
specification text rather than from the code: a language wins on the
hint counts when its count strictly exceeds the count of every other
language; otherwise the counts are retaken over the live tree and the
first language in the fixed tie-break order python, typescript, java
whose count is at least every other count wins. -/
def detectLanguageSpec (impacted_files : List String) (file_tree : List String) :
    Language :=
  let langs : List Language := [Language.python, Language.typescript, Language.java]
  let strictWinner : Option Language :=
    langs.find? (fun l =>
      (otherLanguages l).all (fun m =>
        langCount impacted_files l > langCount impacted_files m))
  match strictWinner with
  | some l => l
  | none =>
    (langs.find? (fun l =>
      langs.all (fun m => langCount file_tree l ≥ langCount file_tree m))).getD
      Language.java

/-- Python `str.capitalize` on a character list: first character
upper-cased, the rest lower-cased. -/
def pyCapitalizeChars : List Char → List Char
  | [] => []
  | c :: cs => c.toUpper :: cs.map Char.toLower

/-- Python `str.split(sep)` for a one-character separator, on character
lists: the accumulator `cur` holds the current chunk reversed. -/
def splitCharsAux (sep : Char) : List Char → List Char → List (List Char)
  | [], cur => [cur.reverse]
  | c :: cs, cur =>
    if c == sep then cur.reverse :: splitCharsAux sep cs []
    else splitCharsAux sep cs (c :: cur)

/-- Embedding of `_slugify_pascal(slug)`: split on `-`, capitalize each
word, join. -/
def slugifyPascal (slug : String) : String :=
  String.mk (((splitCharsAux '-' slug.data []).map pyCapitalizeChars).flatten)

/-- Embedding of `_test_file_ref(language, feature_slug)`. -/
def testFileRef (language : Language) (feature_slug : String) : String :=
  match language with
  | Language.python => "tests/test_" ++ feature_slug ++ ".py"
  | Language.java => "src/test/java/Test" ++ slugifyPascal feature_slug ++ ".java"
  | Language.typescript => "__tests__/" ++ feature_slug ++ ".test.ts"

/-- String rendering of a status, as stored in the `status` column. -/
def Status.toStr : Status → String
  | Status.queued => "queued"
  | Status.cloning => "cloning"
  | Status.planning => "planning"
  | Status.testing => "testing"
  | Status.awaiting_approval => "awaiting_approval"
  | Status.building => "building"
  | Status.verifying => "verifying"
  | Status.pushing => "pushing"
  | Status.done => "done"
  | Status.failed => "failed"

/-- A row of the `execution_runs` table.  Nullable text columns are
`Option String`; a freshly created run has only the first four fields
set by the trigger (`status = queued`, `iteration_count = 0`). -/
structure ExecutionRun where
  id : String
  feature_suggestion_id : String
  repo_id : String
  status : Status
  sandbox_path : Option String := none
  branch_name : Option String := none
  plan_md : Option String := none
  pr_url : Option String := none
  pr_merged : Bool := false
  iteration_count : Nat := 0
  plan_feedback_rating : Option String := none
  plan_feedback_comment : Option String := none
deriving DecidableEq, Repr

/-- A row of the `execution_logs` table (append-only audit trail). -/
structure LogEntry where
  execution_run_id : String
  step : String
  message : String
  log_level : String
deriving DecidableEq, Repr

/-- The datastore slice the execution service reads and writes. -/
structure DBState where
  execution_runs : List ExecutionRun
  execution_logs : List LogEntry
deriving DecidableEq, Repr

/-- Point read by primary key, as done by
`select("*").eq("id", run_id).execute().data[0]`. -/
def findRunIn (runs : List ExecutionRun) (runId : String) : Option ExecutionRun :=
  runs.find? (fun r => r.id == runId)

/-- `update(payload).eq("id", run_id)`: apply a field update to every
row whose id matches. -/
def updateRunById (runs : List ExecutionRun) (runId : String)
    (f : ExecutionRun → ExecutionRun) : List ExecutionRun :=
  runs.map (fun r => if r.id == runId then f r else r)

/-- Lift `updateRunById` to the whole datastore (`_update_status`). -/
def dbUpdateRuns (db : DBState) (runId : String)
    (f : ExecutionRun → ExecutionRun) : DBState :=
  { db with execution_runs := updateRunById db.execution_runs runId f }

/-- Append one log row (`_log`); the `execution_logs` insert. -/
def dbInsertLog (db : DBState) (e : LogEntry) : DBState :=
  { db with execution_logs := db.execution_logs ++ [e] }

/-- The `_TRANSIENT_STATUSES` list of `cleanup_stale_runs`. -/
def transientStatuses : List Status :=
  [Status.queued, Status.cloning, Status.planning, Status.testing,
   Status.building, Status.verifying, Status.pushing]

/-- The log row inserted by `cleanup_stale_runs` for one recovered run. -/
def recoveryLogEntry (r : ExecutionRun) : LogEntry :=
  { execution_run_id := r.id
    step := "startup"
    message := "Run recovered on server restart - was stuck in " ++ r.status.toStr ++
      ". You can retry or abandon this run."
    log_level := "warn" }

/-- Embedding of `cleanup_stale_runs`: query the runs in a transient
status, then for each one update its status to `failed` and insert an
explanatory log row. -/
def cleanupStaleRuns (db : DBState) : DBState :=
  let stale := db.execution_runs.filter (fun r => decide (r.status ∈ transientStatuses))
  stale.foldl (fun acc r =>
    dbInsertLog (dbUpdateRuns acc r.id (fun x => { x with status := Status.failed }))
      (recoveryLogEntry r)) db

/-- Datastore plus the set of sandbox directories currently on disk. -/
structure OrchestratorState where
  db : DBState
  sandboxes : List String
deriving DecidableEq, Repr

/-- `shutil.rmtree(path, ignore_errors=True)`: removing an absent
directory is a no-op. -/
def removeSandbox (dirs : List String) (p : String) : List String :=
  dirs.filter (fun d => !(d == p))

/-- The log row written by `abandon_execution`. -/
def abandonLogEntry (runId : String) : LogEntry :=
  { execution_run_id := runId, step := "done",
    message := "Execution abandoned by user.", log_level := "info" }

/-- Embedding of the `/execution/{run_id}/abandon` route together with
the `abandon_execution` service it calls: 404 when the run does not
exist, otherwise (with no check of the current status) delete the
sandbox when `sandbox_path` is truthy, set status to `failed`, insert
the abandonment log row, and return the re-fetched run. -/
def abandonExecutionRoute (st : OrchestratorState) (runId : String) :
    Except Nat (OrchestratorState × ExecutionRun) :=
  match findRunIn st.db.execution_runs runId with
  | none => Except.error 404
  | some run =>
    let dirs :=
      if pyTruthy run.sandbox_path then removeSandbox st.sandboxes (run.sandbox_path.getD "")
      else st.sandboxes
    let db1 := dbUpdateRuns st.db runId (fun r => { r with status := Status.failed })
    let db2 := dbInsertLog db1 (abandonLogEntry runId)
    match findRunIn db2.execution_runs runId with
    | some updated => Except.ok ({ db := db2, sandboxes := dirs }, updated)
    | none => Except.error 500

/-- A row of the `feature_suggestions` table, restricted to the fields
the execution core reads. -/
structure FeatureSuggestion where
  id : String
  feature_node_id : String
  name : String
  rationale : String
  impacted_files : List String
deriving DecidableEq, Repr

/-- A row of the `feature_nodes` table. -/
structure FeatureNode where
  id : String
  analysis_run_id : String
  name : String
  description : String
  parent_feature_id : Option String
  anchor_files : List String
deriving DecidableEq, Repr

/-- A row of the `feature_edges` table. -/
structure FeatureEdge where
  analysis_run_id : String
  source_node_id : String
  target_node_id : String
  edge_type : String
deriving DecidableEq, Repr

/-- Persisted state touched by the `on_pr_merged` route, plus a counter
modelling the `uuid.uuid4()` fresh-id supply. -/
structure GraphState where
  execution_runs : List ExecutionRun
  feature_suggestions : List FeatureSuggestion
  feature_nodes : List FeatureNode
  feature_edges : List FeatureEdge
  uuidCounter : Nat
deriving DecidableEq, Repr

/-- Model of `uuid.uuid4()`: the n-th fresh identifier. -/
def freshNodeId (n : Nat) : String := "node-" ++ toString n

/-- Embedding of the `/execution/{run_id}/on-merged` route: 404 when
the run, its suggestion, or the parent node is missing; 400 unless the
run is in status `done`; an early idempotent return when `pr_merged`
is already set; otherwise insert a child node and a tree edge and set
`pr_merged`. -/
def onPrMerged (st : GraphState) (runId : String) :
    GraphState × Except Nat ExecutionRun :=
  match findRunIn st.execution_runs runId with
  | none => (st, Except.error 404)
  | some run =>
    if !(run.status == Status.done) then (st, Except.error 400)
    else if run.pr_merged then (st, Except.ok run)
    else
      match st.feature_suggestions.find? (fun s => s.id == run.feature_suggestion_id) with
      | none => (st, Except.error 404)
      | some sugg =>
        match st.feature_nodes.find? (fun n => n.id == sugg.feature_node_id) with
        | none => (st, Except.error 404)
        | some parent =>
          let newId := freshNodeId st.uuidCounter
          let newNode : FeatureNode :=
            { id := newId, analysis_run_id := parent.analysis_run_id,
              name := sugg.name, description := sugg.rationale,
              parent_feature_id := some parent.id, anchor_files := sugg.impacted_files }
          let newEdge : FeatureEdge :=
            { analysis_run_id := parent.analysis_run_id, source_node_id := parent.id,
              target_node_id := newId, edge_type := "tree" }
          ({ st with
              feature_nodes := st.feature_nodes ++ [newNode],
              feature_edges := st.feature_edges ++ [newEdge],
              execution_runs := updateRunById st.execution_runs runId
                (fun r => { r with pr_merged := true }),
              uuidCounter := st.uuidCounter + 1 },
           Except.ok { run with pr_merged := true })

/-- Normalisation `body.comment or None` applied to the optional
feedback comment: an empty string becomes `None`. -/
def normComment : Option String → Option String
  | some s => if s == "" then none else some s
  | none => none

/-- The feedback-field update performed by `submit_plan_feedback`. -/
def applyFeedback (rating : String) (comment : Option String)
    (r : ExecutionRun) : ExecutionRun :=
  { r with plan_feedback_rating := some rating,
           plan_feedback_comment := normComment comment }

/-- Embedding of the `/execution/{run_id}/plan-feedback` route: reject
an invalid rating (400), a missing run (404) and a falsy `plan_md`
(400); otherwise persist the feedback fields, and only when the status
is `awaiting_approval` and a sandbox path is truthy also set status to
`planning` and schedule regeneration (the returned flag).  The returned
run is re-fetched after the updates. -/
def submitPlanFeedback (db : DBState) (runId rating : String)
    (comment : Option String) : DBState × Except Nat ExecutionRun × Bool :=
  if !(rating == "positive" || rating == "negative") then (db, Except.error 400, false)
  else
    match findRunIn db.execution_runs runId with
    | none => (db, Except.error 404, false)
    | some run =>
      if !(pyTruthy run.plan_md) then (db, Except.error 400, false)
      else
        let db1 := dbUpdateRuns db runId (applyFeedback rating comment)
        if run.status == Status.awaiting_approval && pyTruthy run.sandbox_path then
          let db2 := dbUpdateRuns db1 runId (fun r => { r with status := Status.planning })
          match findRunIn db2.execution_runs runId with
          | some updated => (db2, Except.ok updated, true)
          | none => (db2, Except.error 500, true)
        else
          match findRunIn db1.execution_runs runId with
          | some updated => (db1, Except.ok updated, false)
          | none => (db1, Except.error 500, false)

/-- Python `s[:n]` on a string. -/
def strTake (s : String) (n : Nat) : String :=
  String.mk (s.data.take n)

/-- Possible outcomes of one `subprocess.run` call, as seen by the
`try`/`except` block inside `_run_command`: normal completion with an
exit code and captured output, `TimeoutExpired`, or any other raised
exception. -/
inductive CmdOutcome where
  | completed (returncode : Int) (stdout stderr : String)
  | timedOut
  | raised (msg : String)
deriving DecidableEq, Repr

/-- Embedding of `_run_command(cmd, cwd, timeout)`: result triple
`(exit_code, stdout, stderr)`.  A timeout becomes exit code 1 with the
timeout text as stderr; any other exception becomes exit code 1 with
the exception text. -/
def runCommand (outcome : CmdOutcome) (timeout : Nat) : Int × String × String :=
  match outcome with
  | CmdOutcome.completed c o e => (c, o, e)
  | CmdOutcome.timedOut => (1, "", "Command timed out after " ++ toString timeout ++ "s")
  | CmdOutcome.raised m => (1, "", m)

/-- Possible outcomes of the agent subprocess as seen by the
`try`/`except` chain inside `_invoke_claude_code`: normal completion,
a timeout (either the `asyncio.wait_for` or the `subprocess` one, which
the code logs identically), an unresolvable executable, or any other
exception (whose text is `type: message`). -/
inductive AgentOutcome where
  | completed (returncode : Int) (stdout stderr : String)
  | timedOut
  | notFound (msg : String)
  | raised (msg : String)
deriving DecidableEq, Repr

/-- The `Live log:` info row `_invoke_claude_code` writes first. -/
def liveLogRow (runId livePath : String) : LogEntry :=
  { execution_run_id := runId, step := "build",
    message := "Live log: " ++ livePath, log_level := "info" }

/-- A `claude_code` log row with the given message and level. -/
def claudeRow (runId message log_level : String) : LogEntry :=
  { execution_run_id := runId, step := "claude_code",
    message := message, log_level := log_level }

/-- The error row logged when the agent subprocess times out. -/
def agentTimeoutRow (runId : String) (timeout : Nat) : LogEntry :=
  claudeRow runId ("Claude Code timed out after " ++ toString timeout ++ "s") "error"

/-- Embedding of `_invoke_claude_code(sandbox_path, prompt, run_id)` at
the granularity of its observable effects: the returned success flag
and the log rows appended, in order.  `parse` abstracts the per-line
`_parse_stream_json_line` pass over the captured stdout (the rows it
yields become `claude_code` info logs). -/
def invokeClaudeCode (outcome : AgentOutcome) (timeout : Nat)
    (parse : String → List String) (runId livePath : String)
    (logs : List LogEntry) : Bool × List LogEntry :=
  let logs := logs ++ [liveLogRow runId livePath]
  match outcome with
  | AgentOutcome.timedOut =>
    (false, logs ++ [agentTimeoutRow runId timeout])
  | AgentOutcome.notFound m =>
    (false, logs ++ [claudeRow runId ("Claude Code CLI not found: " ++ m ++
      ". Install via https://claude.ai/download or ensure claude is in PATH.") "error"])
  | AgentOutcome.raised m =>
    (false, logs ++ [claudeRow runId ("Claude Code error: " ++ m) "error"])
  | AgentOutcome.completed rc out err =>
    let rows := (parse out).map (fun p => claudeRow runId p "info")
    let logs := logs ++ rows
    let logs :=
      if err == "" then logs
      else logs ++ [claudeRow runId (strTake err 2000) "warn"]
    if !(rc == 0) then
      (false, logs ++ [claudeRow runId ("Exit code " ++ toString rc) "error"])
    else (true, logs)

/-- Sandbox filesystem: a partial map from paths to file contents. -/
def FS : Type := String → Option String

/-- `Path.write_text`. -/
def fsWrite (fs : FS) (p c : String) : FS :=
  fun q => if q == p then some c else fs q

/-- `Path.unlink`. -/
def fsRemove (fs : FS) (p : String) : FS :=
  fun q => if q == p then none else fs q

/-- Outcome of the sandbox-check and `Plan.md` rewrite at the start of
`retry_build_phase`: the early `failed` return when the sandbox is
missing; the `TypeError` that `Path.write_text` raises when the stored
`plan_md` column is null (so `exec_run.get("plan_md", "")` returned
`None`), caught by the top-level handler which marks the run `failed`;
or the rewritten filesystem. -/
inductive RetryPlanOutcome where
  | sandboxMissing
  | writeTypeError (fs : FS)
  | written (fs : FS)

/-- Embedding of lines 993-1006 of `retry_build_phase`: check the
sandbox, then rewrite `Plan.md` from the persisted `plan_md` value. -/
def retryPlanRewrite (sandbox_path : Option String) (sandboxOnDisk : Bool)
    (plan_md : Option String) (fs : FS) : RetryPlanOutcome :=
  if !(pyTruthy sandbox_path) || !sandboxOnDisk then RetryPlanOutcome.sandboxMissing
  else
    match plan_md with
    | none => RetryPlanOutcome.writeTypeError fs
    | some plan =>
      RetryPlanOutcome.written (fsWrite fs (sandbox_path.getD "" ++ "/Plan.md") plan)

/-- The `all_possible` list of stale test candidate paths in
`retry_build_phase` (sandbox-relative, in the order of the source). -/
def staleTestCandidates (slug : String) : List String :=
  ["tests/test_" ++ slug ++ ".py",
   "__tests__/" ++ slug ++ ".test.ts",
   "src/test/java/Test" ++ slugifyPascal slug ++ ".java"]

/-- One iteration of the stale-test cleanup loop: unlink the candidate
when it differs from the current `test_file_ref` and exists on disk,
recording the removal (the `Removed stale test file` log). -/
def staleStep (ref : String) (acc : FS × List String) (stale : String) :
    FS × List String :=
  if !(stale == ref) && (acc.1 stale).isSome then
    (fsRemove acc.1 stale, acc.2 ++ [stale])
  else acc

/-- Embedding of the stale-test-file cleanup loop of
`retry_build_phase` (lines 1029-1039). -/
def removeStaleTests (fs : FS) (language : Language) (slug : String) :
    FS × List String :=
  (staleTestCandidates slug).foldl (staleStep (testFileRef language slug)) (fs, [])

/-- Result of running the bounded build/verify loop: the sequence of
status updates it issues, the number of agent invocations, the results
of the verification calls in order, and whether it exited via the
success break. -/
structure BuildLoopResult where
  statusTrace : List Status
  agentCalls : Nat
  verifyCalls : List Bool
  success : Bool
deriving DecidableEq, Repr

/-- The loop body of `while iteration <= max_iterations`, compiled to
structural recursion on the remaining iteration budget
(`fuel = maxIterations + 1 - iteration`): each pass sets status
`building`, invokes the agent once, sets status `verifying`, runs
verification; success breaks, failure increments the iteration. -/
def buildVerifyLoopAux (verify : Nat → Bool) : Nat → Nat → BuildLoopResult
  | 0, _ => { statusTrace := [], agentCalls := 0, verifyCalls := [], success := false }
  | fuel + 1, iteration =>
    if verify iteration then
      { statusTrace := [Status.building, Status.verifying], agentCalls := 1,
        verifyCalls := [true], success := true }
    else
      let rest := buildVerifyLoopAux verify fuel (iteration + 1)
      { statusTrace := Status.building :: Status.verifying :: rest.statusTrace,
        agentCalls := rest.agentCalls + 1,
        verifyCalls := false :: rest.verifyCalls,
        success := rest.success }

/-- The bounded build/verify loop started at iteration 0 with bound
`maxIterations` (the configured `max_fix_iterations`). -/
def buildVerifyLoop (maxIterations : Nat) (verify : Nat → Bool) : BuildLoopResult :=
  buildVerifyLoopAux verify (maxIterations + 1) 0

/-- Observable outcome of a whole build phase: the status-update trace,
the agent invocation count, the verification results, and whether
`_commit_push_pr` ran. -/
structure BuildPhaseOutcome where
  statusTrace : List Status
  agentCalls : Nat
  verifyCalls : List Bool
  pushed : Bool
deriving DecidableEq, Repr

/-- Embedding of the control flow of `execute_build_phase` from the
loop onward: on loop success, status `pushing`, commit/push/PR, status
`done`; on exhaustion, status `failed` and an immediate return before
any commit/push/PR. -/
def executeBuildPhaseTrace (maxIterations : Nat) (verify : Nat → Bool) :
    BuildPhaseOutcome :=
  let loop := buildVerifyLoop maxIterations verify
  if loop.success then
    { statusTrace := loop.statusTrace ++ [Status.pushing, Status.done],
      agentCalls := loop.agentCalls, verifyCalls := loop.verifyCalls, pushed := true }
  else
    { statusTrace := loop.statusTrace ++ [Status.failed],
      agentCalls := loop.agentCalls, verifyCalls := loop.verifyCalls, pushed := false }

/-- Embedding of the control flow of `retry_build_phase` from its
`building` reset onward: one extra leading `building` update, then the
same bounded loop and tail as `execute_build_phase`. -/
def retryBuildPhaseTrace (maxIterations : Nat) (verify : Nat → Bool) :
    BuildPhaseOutcome :=
  let loop := buildVerifyLoop maxIterations verify
  if loop.success then
    { statusTrace := Status.building :: (loop.statusTrace ++ [Status.pushing, Status.done]),
      agentCalls := loop.agentCalls, verifyCalls := loop.verifyCalls, pushed := true }
  else
    { statusTrace := Status.building :: (loop.statusTrace ++ [Status.failed]),
      agentCalls := loop.agentCalls, verifyCalls := loop.verifyCalls, pushed := false }

/-- One step of the recovery fold of `cleanup_stale_runs`: force the
run to `failed` and insert its recovery log row. -/
def recoveryStep (acc : DBState) (r : ExecutionRun) : DBState :=
  dbInsertLog (dbUpdateRuns acc r.id (fun x => { x with status := Status.failed }))
    (recoveryLogEntry r)

/-- A two-run datastore exercising the recovery sweep: one run stuck in
`building`, one resting in `awaiting_approval`. -/
def recoveryDbExample : DBState :=
  { execution_runs :=
      [{ id := "ra", feature_suggestion_id := "s1", repo_id := "p1",
         status := Status.building, sandbox_path := some "sba" },
       { id := "rb", feature_suggestion_id := "s2", repo_id := "p1",
         status := Status.awaiting_approval, sandbox_path := some "sbb" }],
    execution_logs := [] }

/-- A run that finished successfully (status `done`), used to exercise
the abandon route outside the `failed` status. -/
def doneRunExample : ExecutionRun :=
  { id := "r1", feature_suggestion_id := "s1", repo_id := "p1",
    status := Status.done, sandbox_path := some "sb",
    branch_name := some "b", plan_md := some "plan", pr_url := some "u" }

/-- Orchestrator state holding just `doneRunExample` and its sandbox. -/
def doneRunState : OrchestratorState :=
  { db := { execution_runs := [doneRunExample], execution_logs := [] },
    sandboxes := ["sb"] }

/-- A completed, not yet merged run for the `on_pr_merged` scenario. -/
def mergedRunExample : ExecutionRun :=
  { id := "e1", feature_suggestion_id := "sg1", repo_id := "rp1",
    status := Status.done, pr_url := some "u" }

/-- The suggestion `mergedRunExample` implements. -/
def mergedSuggExample : FeatureSuggestion :=
  { id := "sg1", feature_node_id := "n1", name := "feat", rationale := "why",
    impacted_files := ["a.py"] }

/-- The parent feature node of `mergedSuggExample`. -/
def mergedNodeExample : FeatureNode :=
  { id := "n1", analysis_run_id := "ar1", name := "root", description := "",
    parent_feature_id := none, anchor_files := [] }

/-- Graph state for the `on_pr_merged` idempotence scenario. -/
def mergedStateExample : GraphState :=
  { execution_runs := [mergedRunExample],
    feature_suggestions := [mergedSuggExample],
    feature_nodes := [mergedNodeExample],
    feature_edges := [], uuidCounter := 0 }

/-- A run awaiting approval with a falsy (empty) sandbox path, used to
exercise the plan-feedback route on its no-regeneration branch. -/
def feedbackRunExample : ExecutionRun :=
  { id := "f1", feature_suggestion_id := "s1", repo_id := "p1",
    status := Status.awaiting_approval, sandbox_path := some "",
    plan_md := some "plan" }

/-- Datastore holding just `feedbackRunExample`. -/
def feedbackDbExample : DBState :=
  { execution_runs := [feedbackRunExample], execution_logs := [] }

/-- An empty sandbox filesystem. -/
def emptyFs : FS := fun _ => none

/-- A sandbox filesystem holding a stale python test and a current
typescript test for the slug `feat`. -/
def staleFsExample : FS :=
  fun p =>
    if p == "tests/test_feat.py" then some "old python test"
    else if p == "__tests__/feat.test.ts" then some "ts test"
    else none

end Nexus

namespace Nexus

lemma find?_cons_ite {α : Type} (p : α → Bool) (a : α) (l : List α) :
    List.find? p (a :: l) = if p a = true then some a else List.find? p l := by
  cases h : p a <;> simp [List.find?_cons, h]

/-- C4.  The language detector agrees, on every pair of hint list and
live tree, with the specification-side formulation `detectLanguageSpec`
(strict majority over the hint counts, else `≥`-majority over the tree
counts with tie-break order python, typescript, java), and always
returns one of the three languages. -/
theorem detect_language_matches_spec (impacted tree : List String) :
    detectFeatureLanguage impacted tree = detectLanguageSpec impacted tree ∧
    (detectFeatureLanguage impacted tree = Language.python ∨
     detectFeatureLanguage impacted tree = Language.typescript ∨
     detectFeatureLanguage impacted tree = Language.java) := by
  constructor
  · unfold detectFeatureLanguage detectLanguageSpec
    simp only [find?_cons_ite, List.find?_nil, otherLanguages, langCount, List.all_cons,
      List.all_nil, Bool.and_true, Bool.and_eq_true, decide_eq_true_eq]
    split_ifs <;> simp_all
  · cases detectFeatureLanguage impacted tree <;> simp

lemma cleanupStaleRuns_eq_fold (db : DBState) :
    cleanupStaleRuns db =
      (db.execution_runs.filter (fun r => decide (r.status ∈ transientStatuses))).foldl
        recoveryStep db := rfl

lemma recovery_fold_logs (rs : List ExecutionRun) (db : DBState) :
    (rs.foldl recoveryStep db).execution_logs =
      db.execution_logs ++ rs.map recoveryLogEntry := by
  induction rs generalizing db with
  | nil => simp
  | cons a l ih =>
    simp [List.foldl_cons, ih, recoveryStep, dbInsertLog, dbUpdateRuns]

lemma recovery_fold_runs (rs : List ExecutionRun) (db : DBState) :
    (rs.foldl recoveryStep db).execution_runs =
      db.execution_runs.map (fun r =>
        if r.id ∈ rs.map (fun s => s.id) then { r with status := Status.failed } else r) := by
  induction rs generalizing db with
  | nil => simp
  | cons a l ih =>
    rw [List.foldl_cons, ih]
    show (updateRunById db.execution_runs a.id _).map _ = _
    rw [updateRunById, List.map_map]
    refine List.map_congr_left (fun r _ => ?_)
    by_cases h : r.id = a.id
    · simp [Function.comp, h]
    · have : (r.id == a.id) = false := by simp [h]
      simp [Function.comp, this, h]

/-- C2.  Provided run ids are unique, the startup recovery sweep
appends (only) new log entries, forces exactly the runs in a transient
status to `failed` while logging a `startup` entry for each of them,
and leaves every run in `awaiting_approval`, `done` or `failed`
untouched with no log entry mentioning it. -/
theorem cleanup_stale_runs_spec (db : DBState)
    (hids : ∀ r1 ∈ db.execution_runs, ∀ r2 ∈ db.execution_runs, r1.id = r2.id → r1 = r2) :
    ∃ newLogs : List LogEntry,
      (cleanupStaleRuns db).execution_logs = db.execution_logs ++ newLogs ∧
      (∀ r ∈ db.execution_runs,
        (r.status ∈ transientStatuses →
          { r with status := Status.failed } ∈ (cleanupStaleRuns db).execution_runs ∧
          ∃ e ∈ newLogs, e.execution_run_id = r.id ∧ e.step = "startup") ∧
        ((r.status = Status.awaiting_approval ∨ r.status = Status.done ∨
            r.status = Status.failed) →
          r ∈ (cleanupStaleRuns db).execution_runs ∧
          ∀ e ∈ newLogs, e.execution_run_id ≠ r.id)) := by
  classical
  set stale := db.execution_runs.filter (fun r => decide (r.status ∈ transientStatuses))
    with hstale
  refine ⟨stale.map recoveryLogEntry, ?_, ?_⟩
  · rw [cleanupStaleRuns_eq_fold, recovery_fold_logs]
  · intro r hr
    have hruns : (cleanupStaleRuns db).execution_runs =
        db.execution_runs.map (fun x =>
          if x.id ∈ stale.map (fun s => s.id) then { x with status := Status.failed }
          else x) := by
      rw [cleanupStaleRuns_eq_fold, recovery_fold_runs]
    constructor
    · intro htrans
      have hmem : r ∈ stale := by
        rw [hstale]
        simp [List.mem_filter, hr, htrans]
      have hid : r.id ∈ stale.map (fun s => s.id) := List.mem_map_of_mem _ hmem
      constructor
      · rw [hruns]
        exact List.mem_map.mpr ⟨r, hr, by simp [hid]⟩
      · exact ⟨recoveryLogEntry r, List.mem_map_of_mem _ hmem, rfl, rfl⟩
    · intro hterm
      have hnt : r.status ∉ transientStatuses := by
        rcases hterm with h | h | h <;> rw [h] <;> decide
      have hid : r.id ∉ stale.map (fun s => s.id) := by
        intro hmem
        rcases List.mem_map.mp hmem with ⟨s, hs, hsid⟩
        have hsdb : s ∈ db.execution_runs := (List.mem_filter.mp (hstale ▸ hs)).1
        have hstrans : s.status ∈ transientStatuses := by
          have := (List.mem_filter.mp (hstale ▸ hs)).2
          simpa using this
        have : s = r := hids s hsdb r hr hsid
        exact hnt (this ▸ hstrans)
      constructor
      · rw [hruns]
        exact List.mem_map.mpr ⟨r, hr, by simp [hid]⟩
      · intro e he
        rcases List.mem_map.mp he with ⟨s, hs, rfl⟩
        have hsdb : s ∈ db.execution_runs := (List.mem_filter.mp (hstale ▸ hs)).1
        have hstrans : s.status ∈ transientStatuses := by
          have := (List.mem_filter.mp (hstale ▸ hs)).2
          simpa using this
        intro hsid
        have : s = r := hids s hsdb r hr hsid
        exact hnt (this ▸ hstrans)

/-- Witness for C2: the sweep applied to a datastore with a `building`
run and an `awaiting_approval` run. -/
theorem cleanup_stale_runs_spec_witness :
    ∃ newLogs : List LogEntry,
      (cleanupStaleRuns recoveryDbExample).execution_logs =
        recoveryDbExample.execution_logs ++ newLogs ∧
      (∀ r ∈ recoveryDbExample.execution_runs,
        (r.status ∈ transientStatuses →
          { r with status := Status.failed } ∈
            (cleanupStaleRuns recoveryDbExample).execution_runs ∧
          ∃ e ∈ newLogs, e.execution_run_id = r.id ∧ e.step = "startup") ∧
        ((r.status = Status.awaiting_approval ∨ r.status = Status.done ∨
            r.status = Status.failed) →
          r ∈ (cleanupStaleRuns recoveryDbExample).execution_runs ∧
          ∀ e ∈ newLogs, e.execution_run_id ≠ r.id)) :=
  cleanup_stale_runs_spec recoveryDbExample (by decide)

end Nexus

namespace Nexus

/-- C8.  When neither the hint list nor the live tree contains a file
matching any of the three extension sets (in particular when both are
empty), the detector still returns `python` via the non-strict
fallback, rather than failing or returning an unknown value. -/
theorem detect_no_match_defaults_python (hints tree : List String)
    (hh : ∀ f ∈ hints, strEndsWith f ".py" = false ∧ strEndsWith f ".ts" = false ∧
      strEndsWith f ".tsx" = false ∧ strEndsWith f ".js" = false ∧
      strEndsWith f ".jsx" = false ∧ strEndsWith f ".java" = false)
    (ht : ∀ f ∈ tree, strEndsWith f ".py" = false ∧ strEndsWith f ".ts" = false ∧
      strEndsWith f ".tsx" = false ∧ strEndsWith f ".js" = false ∧
      strEndsWith f ".jsx" = false ∧ strEndsWith f ".java" = false) :
    detectFeatureLanguage hints tree = Language.python := by
  have hz : ∀ (fs : List String),
      (∀ f ∈ fs, strEndsWith f ".py" = false ∧ strEndsWith f ".ts" = false ∧
        strEndsWith f ".tsx" = false ∧ strEndsWith f ".js" = false ∧
        strEndsWith f ".jsx" = false ∧ strEndsWith f ".java" = false) →
      countPy fs = 0 ∧ countTs fs = 0 ∧ countJava fs = 0 := by
    intro fs hfs
    refine ⟨?_, ?_, ?_⟩
    · unfold countPy
      rw [List.length_eq_zero, List.filter_eq_nil_iff]
      intro f hf
      simp [(hfs f hf).1]
    · unfold countTs
      rw [List.length_eq_zero, List.filter_eq_nil_iff]
      intro f hf
      rcases hfs f hf with ⟨_, h2, h3, h4, h5, _⟩
      simp [h2, h3, h4, h5]
    · unfold countJava
      rw [List.length_eq_zero, List.filter_eq_nil_iff]
      intro f hf
      simp [(hfs f hf).2.2.2.2.2]
  rcases hz hints hh with ⟨h1, h2, h3⟩
  rcases hz tree ht with ⟨h4, h5, h6⟩
  unfold detectFeatureLanguage
  simp [h1, h2, h3, h4, h5, h6]

/-- Witness for C8: empty hint list and empty tree give `python`. -/
theorem detect_no_match_defaults_python_witness :
    detectFeatureLanguage [] [] = Language.python :=
  detect_no_match_defaults_python [] [] (by simp) (by simp)

end Nexus

namespace Nexus

lemma loopAux_agentCalls_le (verify : Nat → Bool) :
    ∀ (fuel i : Nat), (buildVerifyLoopAux verify fuel i).agentCalls ≤ fuel := by
  intro fuel
  induction fuel with
  | zero => intro i; simp [buildVerifyLoopAux]
  | succ n ih =>
    intro i
    by_cases h : verify i = true
    · simp [buildVerifyLoopAux, h]
    · simp only [buildVerifyLoopAux, h, Bool.false_eq_true, if_false]
      have := ih (i + 1)
      omega

lemma loopAux_success_last_verify (verify : Nat → Bool) :
    ∀ (fuel i : Nat), (buildVerifyLoopAux verify fuel i).success = true →
      (buildVerifyLoopAux verify fuel i).verifyCalls.getLast? = some true := by
  intro fuel
  induction fuel with
  | zero => intro i h; simp [buildVerifyLoopAux] at h
  | succ n ih =>
    intro i h
    by_cases hv : verify i = true
    · simp [buildVerifyLoopAux, hv]
    · simp only [buildVerifyLoopAux, hv, Bool.false_eq_true, if_false] at h ⊢
      have hlast := ih (i + 1) h
      cases hvc : (buildVerifyLoopAux verify n (i + 1)).verifyCalls with
      | nil => rw [hvc] at hlast; simp at hlast
      | cons b t =>
        rw [hvc] at hlast
        simpa [List.getLast?_cons_cons] using hlast

lemma loopAux_all_fail (verify : Nat → Bool) :
    ∀ (fuel i : Nat), (∀ j, i ≤ j → j < i + fuel → verify j = false) →
      (buildVerifyLoopAux verify fuel i).success = false := by
  intro fuel
  induction fuel with
  | zero => intro i _; simp [buildVerifyLoopAux]
  | succ n ih =>
    intro i hall
    have hv : verify i = false := hall i (Nat.le_refl i) (by omega)
    simp only [buildVerifyLoopAux, hv, Bool.false_eq_true, if_false]
    exact ih (i + 1) (fun j h1 h2 => hall j (by omega) (by omega))

lemma loopAux_trace_only_loop_statuses (verify : Nat → Bool) :
    ∀ (fuel i : Nat), ∀ s ∈ (buildVerifyLoopAux verify fuel i).statusTrace,
      s = Status.building ∨ s = Status.verifying := by
  intro fuel
  induction fuel with
  | zero => intro i s hs; simp [buildVerifyLoopAux] at hs
  | succ n ih =>
    intro i s hs
    by_cases hv : verify i = true
    · simp [buildVerifyLoopAux, hv] at hs
      rcases hs with h | h <;> simp [h]
    · simp only [buildVerifyLoopAux, hv, Bool.false_eq_true, if_false,
        List.mem_cons] at hs
      rcases hs with h | h | h
      · left; exact h
      · right; exact h
      · exact ih (i + 1) s h

/-- C1.  For both the approved build phase and the user-initiated
retry: the loop invokes the agent at most `maxIterations + 1` times;
status `pushing` appears in the trace only when the most recent
verification call returned success (and the phase then commits); and
when every verification within the bound fails, the phase ends in
`failed`, never reaches `pushing`, and performs no commit/push/PR. -/
theorem build_loop_bounded_and_push_gated (m : Nat) (verify : Nat → Bool) :
    (executeBuildPhaseTrace m verify).agentCalls ≤ m + 1 ∧
    (retryBuildPhaseTrace m verify).agentCalls ≤ m + 1 ∧
    (Status.pushing ∈ (executeBuildPhaseTrace m verify).statusTrace →
      (executeBuildPhaseTrace m verify).verifyCalls.getLast? = some true ∧
      (executeBuildPhaseTrace m verify).pushed = true) ∧
    (Status.pushing ∈ (retryBuildPhaseTrace m verify).statusTrace →
      (retryBuildPhaseTrace m verify).verifyCalls.getLast? = some true ∧
      (retryBuildPhaseTrace m verify).pushed = true) ∧
    ((∀ i, i ≤ m → verify i = false) →
      (executeBuildPhaseTrace m verify).pushed = false ∧
      (executeBuildPhaseTrace m verify).statusTrace.getLast? = some Status.failed ∧
      Status.pushing ∉ (executeBuildPhaseTrace m verify).statusTrace ∧
      (retryBuildPhaseTrace m verify).pushed = false ∧
      (retryBuildPhaseTrace m verify).statusTrace.getLast? = some Status.failed ∧
      Status.pushing ∉ (retryBuildPhaseTrace m verify).statusTrace) := by
  have hcalls : (buildVerifyLoop m verify).agentCalls ≤ m + 1 :=
    loopAux_agentCalls_le verify (m + 1) 0
  have honly : ∀ s ∈ (buildVerifyLoop m verify).statusTrace,
      s = Status.building ∨ s = Status.verifying :=
    loopAux_trace_only_loop_statuses verify (m + 1) 0
  have hlastv : (buildVerifyLoop m verify).success = true →
      (buildVerifyLoop m verify).verifyCalls.getLast? = some true :=
    loopAux_success_last_verify verify (m + 1) 0
  have hnopush : Status.pushing ∉ (buildVerifyLoop m verify).statusTrace := by
    intro hmem
    rcases honly Status.pushing hmem with h | h <;> simp at h
  refine ⟨?_, ?_, ?_, ?_, ?_⟩
  · unfold executeBuildPhaseTrace
    cases h : (buildVerifyLoop m verify).success <;> simp [h, hcalls]
  · unfold retryBuildPhaseTrace
    cases h : (buildVerifyLoop m verify).success <;> simp [h, hcalls]
  · intro hmem
    unfold executeBuildPhaseTrace at hmem ⊢
    cases h : (buildVerifyLoop m verify).success with
    | true => simp [h, hlastv h]
    | false =>
      exfalso
      simp only [h, Bool.false_eq_true, if_false, List.mem_append,
        List.mem_singleton] at hmem
      rcases hmem with hmem | hmem
      · exact hnopush hmem
      · exact absurd hmem (by simp)
  · intro hmem
    unfold retryBuildPhaseTrace at hmem ⊢
    cases h : (buildVerifyLoop m verify).success with
    | true => simp [h, hlastv h]
    | false =>
      exfalso
      simp only [h, Bool.false_eq_true, if_false, List.mem_cons, List.mem_append,
        List.mem_singleton] at hmem
      rcases hmem with hmem | hmem | hmem
      · exact absurd hmem (by simp)
      · exact hnopush hmem
      · exact absurd hmem (by simp)
  · intro hfail
    have hsucc : (buildVerifyLoop m verify).success = false := by
      apply loopAux_all_fail
      intro j _ hj
      exact hfail j (by omega)
    refine ⟨by simp [executeBuildPhaseTrace, hsucc], ?_, ?_,
      by simp [retryBuildPhaseTrace, hsucc], ?_, ?_⟩
    · simp [executeBuildPhaseTrace, hsucc, List.getLast?_concat]
    · simp only [executeBuildPhaseTrace, hsucc, Bool.false_eq_true, if_false]
      intro hmem
      rcases List.mem_append.mp hmem with h2 | h2
      · exact hnopush h2
      · simp at h2
    · simp only [retryBuildPhaseTrace, hsucc, Bool.false_eq_true, if_false]
      rw [show Status.building :: ((buildVerifyLoop m verify).statusTrace ++ [Status.failed]) =
        (Status.building :: (buildVerifyLoop m verify).statusTrace) ++ [Status.failed] from rfl]
      exact List.getLast?_concat _
    · simp only [retryBuildPhaseTrace, hsucc, Bool.false_eq_true, if_false]
      intro hmem
      rcases List.mem_cons.mp hmem with h1 | h1
      · exact absurd h1 (by simp)
      · rcases List.mem_append.mp h1 with h2 | h2
        · exact hnopush h2
        · simp at h2

/-- Witness for C1: with `maxIterations = 2` and verification failing
on every iteration, the build phase does not push and ends `failed`. -/
theorem build_loop_bounded_witness :
    (executeBuildPhaseTrace 2 (fun _ => false)).pushed = false ∧
    (executeBuildPhaseTrace 2 (fun _ => false)).statusTrace.getLast? =
      some Status.failed :=
  ⟨((build_loop_bounded_and_push_gated 2 (fun _ => false)).2.2.2.2 (fun _ _ => rfl)).1,
   ((build_loop_bounded_and_push_gated 2 (fun _ => false)).2.2.2.2 (fun _ _ => rfl)).2.1⟩

end Nexus

namespace Nexus

lemma findRunIn_updateRunById (runs : List ExecutionRun) (runId : String)
    (f : ExecutionRun → ExecutionRun) (hf : ∀ r, (f r).id = r.id) :
    findRunIn (updateRunById runs runId f) runId = (findRunIn runs runId).map f := by
  induction runs with
  | nil => rfl
  | cons a l ih =>
    show List.find? (fun r => r.id == runId)
        ((if (a.id == runId) = true then f a else a) :: updateRunById l runId f) =
      Option.map f (List.find? (fun r => r.id == runId) (a :: l))
    by_cases h : (a.id == runId) = true
    · rw [if_pos h]
      have hfb : ((f a).id == runId) = true := by rw [hf]; exact h
      rw [List.find?_cons_of_pos (p := fun (r : ExecutionRun) => r.id == runId) _ hfb,
        List.find?_cons_of_pos (p := fun (r : ExecutionRun) => r.id == runId) _ h]
      rfl
    · rw [if_neg h]
      rw [List.find?_cons_of_neg (p := fun (r : ExecutionRun) => r.id == runId) _ h,
        List.find?_cons_of_neg (p := fun (r : ExecutionRun) => r.id == runId) _ h]
      exact ih

/-- C3 (amended).  The abandon route is available for every existing
run, with no check of the current status: it always sets the status to
`failed`, appends the abandonment log entry, and removes the sandbox
directory exactly when `sandbox_path` is truthy. -/
theorem abandon_acts_on_any_existing_run (st : OrchestratorState) (runId : String)
    (run : ExecutionRun) (h : findRunIn st.db.execution_runs runId = some run) :
    abandonExecutionRoute st runId =
      Except.ok
        ({ db :=
             { execution_runs :=
                 updateRunById st.db.execution_runs runId
                   (fun r => { r with status := Status.failed }),
               execution_logs := st.db.execution_logs ++ [abandonLogEntry runId] },
           sandboxes :=
             if pyTruthy run.sandbox_path then
               removeSandbox st.sandboxes (run.sandbox_path.getD "")
             else st.sandboxes },
         { run with status := Status.failed }) := by
  unfold abandonExecutionRoute
  rw [h]
  have hfind : findRunIn (dbInsertLog (dbUpdateRuns st.db runId
      (fun r => { r with status := Status.failed })) (abandonLogEntry runId)).execution_runs
        runId = some { run with status := Status.failed } := by
    show findRunIn (updateRunById st.db.execution_runs runId _) runId = _
    rw [findRunIn_updateRunById st.db.execution_runs runId
      (fun r => { r with status := Status.failed }) (fun r => rfl), h]
    rfl
  simp only [hfind]
  rfl

/-- Counterexample for C3 as stated: the abandon route succeeds on a
run whose status is `done`, not `failed`, and marks it `failed`. -/
theorem abandon_not_gated_on_failed :
    doneRunExample.status = Status.done ∧
    abandonExecutionRoute doneRunState "r1" =
      Except.ok
        ({ db :=
             { execution_runs := [{ doneRunExample with status := Status.failed }],
               execution_logs := [abandonLogEntry "r1"] },
           sandboxes := [] },
         { doneRunExample with status := Status.failed }) := by
  constructor
  · rfl
  · rfl

/-- Witness for the amended C3 theorem, at `doneRunState`. -/
theorem abandon_acts_witness :
    abandonExecutionRoute doneRunState "r1" =
      Except.ok
        ({ db :=
             { execution_runs :=
                 updateRunById doneRunState.db.execution_runs "r1"
                   (fun r => { r with status := Status.failed }),
               execution_logs := doneRunState.db.execution_logs ++ [abandonLogEntry "r1"] },
           sandboxes :=
             if pyTruthy doneRunExample.sandbox_path then
               removeSandbox doneRunState.sandboxes (doneRunExample.sandbox_path.getD "")
             else doneRunState.sandboxes },
         { doneRunExample with status := Status.failed }) :=
  abandon_acts_on_any_existing_run doneRunState "r1" doneRunExample (by rfl)

/-- C5.  `on_pr_merged` is idempotent on a run in status `done`: the
second invocation leaves the persisted state (runs, nodes, edges)
exactly as after the first, and when the first returned a run the
second returns the very same run. -/
theorem on_pr_merged_idempotent (st : GraphState) (runId : String) (run : ExecutionRun)
    (hrun : findRunIn st.execution_runs runId = some run)
    (hdone : run.status = Status.done) :
    (onPrMerged (onPrMerged st runId).1 runId).1 = (onPrMerged st runId).1 ∧
    (∀ r1, (onPrMerged st runId).2 = Except.ok r1 →
      (onPrMerged (onPrMerged st runId).1 runId).2 = Except.ok r1) := by
  by_cases hpm : run.pr_merged = true
  · have honce : onPrMerged st runId = (st, Except.ok run) := by
      unfold onPrMerged
      rw [hrun]
      simp [hdone, hpm]
    rw [honce]
    refine ⟨by rw [honce], ?_⟩
    intro r1 h1
    simp at h1
    rw [honce]
    simp [h1]
  · cases hsugg : st.feature_suggestions.find? (fun s => s.id == run.feature_suggestion_id) with
    | none =>
      have honce : onPrMerged st runId = (st, Except.error 404) := by
        unfold onPrMerged
        rw [hrun]
        simp [hdone, hpm, hsugg]
      rw [honce]
      refine ⟨by rw [honce], ?_⟩
      intro r1 h1
      simp at h1
    | some sugg =>
      cases hpar : st.feature_nodes.find? (fun n => n.id == sugg.feature_node_id) with
      | none =>
        have honce : onPrMerged st runId = (st, Except.error 404) := by
          unfold onPrMerged
          rw [hrun]
          simp [hdone, hpm, hsugg, hpar]
        rw [honce]
        refine ⟨by rw [honce], ?_⟩
        intro r1 h1
        simp at h1
      | some parent =>
        have hfind2 : findRunIn (updateRunById st.execution_runs runId
              (fun r => { r with pr_merged := true })) runId =
            some { run with pr_merged := true } := by
          rw [findRunIn_updateRunById st.execution_runs runId
            (fun r => { r with pr_merged := true }) (fun r => rfl), hrun]
          rfl
        have honce : onPrMerged st runId =
            ({ st with
                feature_nodes := st.feature_nodes ++
                  [{ id := freshNodeId st.uuidCounter,
                     analysis_run_id := parent.analysis_run_id,
                     name := sugg.name, description := sugg.rationale,
                     parent_feature_id := some parent.id,
                     anchor_files := sugg.impacted_files }],
                feature_edges := st.feature_edges ++
                  [{ analysis_run_id := parent.analysis_run_id,
                     source_node_id := parent.id,
                     target_node_id := freshNodeId st.uuidCounter,
                     edge_type := "tree" }],
                execution_runs := updateRunById st.execution_runs runId
                  (fun r => { r with pr_merged := true }),
                uuidCounter := st.uuidCounter + 1 },
             Except.ok { run with pr_merged := true }) := by
          unfold onPrMerged
          rw [hrun]
          simp [hdone, hpm, hsugg, hpar]
        have htwice : onPrMerged (onPrMerged st runId).1 runId =
            ((onPrMerged st runId).1, Except.ok { run with pr_merged := true }) := by
          rw [honce]
          unfold onPrMerged
          rw [show findRunIn ({ st with
              feature_nodes := st.feature_nodes ++
                [{ id := freshNodeId st.uuidCounter,
                   analysis_run_id := parent.analysis_run_id,
                   name := sugg.name, description := sugg.rationale,
                   parent_feature_id := some parent.id,
                   anchor_files := sugg.impacted_files }],
              feature_edges := st.feature_edges ++
                [{ analysis_run_id := parent.analysis_run_id,
                   source_node_id := parent.id,
                   target_node_id := freshNodeId st.uuidCounter,
                   edge_type := "tree" }],
              execution_runs := updateRunById st.execution_runs runId
                (fun r => { r with pr_merged := true }),
              uuidCounter := st.uuidCounter + 1 } : GraphState).execution_runs runId =
            some { run with pr_merged := true } from hfind2]
          simp [hdone]
        rw [htwice, honce]
        exact ⟨rfl, fun r1 h1 => by simp at h1; simp [h1]⟩

/-- Witness for C5: the idempotence instantiated at
`mergedStateExample`. -/
theorem on_pr_merged_idempotent_witness :
    (onPrMerged (onPrMerged mergedStateExample "e1").1 "e1").1 =
      (onPrMerged mergedStateExample "e1").1 ∧
    (∀ r1, (onPrMerged mergedStateExample "e1").2 = Except.ok r1 →
      (onPrMerged (onPrMerged mergedStateExample "e1").1 "e1").2 = Except.ok r1) :=
  on_pr_merged_idempotent mergedStateExample "e1" mergedRunExample (by rfl) rfl

end Nexus

namespace Nexus

/-- C9.  Plan feedback outside the regeneration precondition still
persists the feedback fields but changes nothing else and triggers no
regeneration; and the regeneration flag can only be set when the run
is `awaiting_approval` with a truthy sandbox path. -/
theorem plan_feedback_persists_without_regen :
    (∀ (db : DBState) (runId rating : String) (comment : Option String)
      (run : ExecutionRun),
      findRunIn db.execution_runs runId = some run →
      (rating = "positive" ∨ rating = "negative") →
      pyTruthy run.plan_md = true →
      ¬(run.status = Status.awaiting_approval ∧ pyTruthy run.sandbox_path = true) →
      submitPlanFeedback db runId rating comment =
        (dbUpdateRuns db runId (applyFeedback rating comment),
         Except.ok (applyFeedback rating comment run),
         false)) ∧
    (∀ (db : DBState) (runId rating : String) (comment : Option String),
      (submitPlanFeedback db runId rating comment).2.2 = true →
      ∃ run, findRunIn db.execution_runs runId = some run ∧
        run.status = Status.awaiting_approval ∧ pyTruthy run.sandbox_path = true) := by
  constructor
  · intro db runId rating comment run hrun hrat hplan hnot
    have hratb : (rating == "positive" || rating == "negative") = true := by
      rcases hrat with h | h <;> simp [h]
    have hcond : (run.status == Status.awaiting_approval && pyTruthy run.sandbox_path) = false := by
      by_cases hst : run.status = Status.awaiting_approval
      · have : pyTruthy run.sandbox_path = false := by
          by_contra hc
          exact hnot ⟨hst, by revert hc; cases pyTruthy run.sandbox_path <;> simp⟩
        simp [this]
      · have : (run.status == Status.awaiting_approval) = false := by
          simp [hst]
        simp [this]
    have hfind1 : findRunIn (dbUpdateRuns db runId
        (applyFeedback rating comment)).execution_runs runId =
        some (applyFeedback rating comment run) := by
      show findRunIn (updateRunById db.execution_runs runId _) runId = _
      rw [findRunIn_updateRunById db.execution_runs runId
        (applyFeedback rating comment) (fun r => rfl), hrun]
      rfl
    unfold submitPlanFeedback
    simp only [hrun, hratb, Bool.not_true, Bool.false_eq_true, if_false, hplan,
      hcond, hfind1]
  · intro db runId rating comment hflag
    unfold submitPlanFeedback at hflag
    by_cases hratb : (rating == "positive" || rating == "negative") = true
    · simp only [hratb, Bool.not_true, Bool.false_eq_true, if_false] at hflag
      cases hrun : findRunIn db.execution_runs runId with
      | none => simp only [hrun] at hflag; simp at hflag
      | some run =>
        simp only [hrun] at hflag
        by_cases hplan : pyTruthy run.plan_md = true
        · simp only [hplan, Bool.not_true, Bool.false_eq_true, if_false] at hflag
          by_cases hcond : (run.status == Status.awaiting_approval &&
              pyTruthy run.sandbox_path) = true
          · refine ⟨run, rfl, ?_, ?_⟩
            · have := (Bool.and_eq_true _ _).mp hcond
              exact eq_of_beq this.1
            · exact ((Bool.and_eq_true _ _).mp hcond).2
          · have hcf : (run.status == Status.awaiting_approval &&
                pyTruthy run.sandbox_path) = false := by
              revert hcond
              cases run.status == Status.awaiting_approval && pyTruthy run.sandbox_path <;>
                simp
            simp only [hcf, Bool.false_eq_true, if_false] at hflag
            cases hf : findRunIn (dbUpdateRuns db runId
                (applyFeedback rating comment)).execution_runs runId <;>
              simp only [hf] at hflag <;> simp at hflag
        · have hpf : pyTruthy run.plan_md = false := by
            revert hplan
            cases pyTruthy run.plan_md <;> simp
          simp only [hpf, Bool.not_false, if_true] at hflag
          simp at hflag
    · have hrf : (rating == "positive" || rating == "negative") = false := by
        revert hratb
        cases rating == "positive" || rating == "negative" <;> simp
      simp only [hrf, Bool.not_false, if_true] at hflag
      simp at hflag

end Nexus

namespace Nexus

/-- Witness for C9: feedback on an `awaiting_approval` run whose
sandbox path is empty (falsy) persists the fields with no
regeneration. -/
theorem plan_feedback_persists_witness :
    submitPlanFeedback feedbackDbExample "f1" "positive" (some "meh") =
      (dbUpdateRuns feedbackDbExample "f1" (applyFeedback "positive" (some "meh")),
       Except.ok (applyFeedback "positive" (some "meh") feedbackRunExample),
       false) :=
  plan_feedback_persists_without_regen.1 feedbackDbExample "f1" "positive" (some "meh")
    feedbackRunExample (by rfl) (Or.inl rfl) (by rfl) (by decide)

end Nexus

namespace Nexus

/-- C6.  A timeout is never silent: a timed-out verification command
yields exit code 1 (non-zero) with the timeout text as its captured
stderr, and a timed-out agent invocation returns failure and appends an
error log row carrying the timeout text. -/
theorem timeouts_surfaced_as_failures (timeout : Nat) (parse : String → List String)
    (runId livePath : String) (logs : List LogEntry) :
    (runCommand CmdOutcome.timedOut timeout).1 = 1 ∧
    (runCommand CmdOutcome.timedOut timeout).2.2 =
      "Command timed out after " ++ toString timeout ++ "s" ∧
    (invokeClaudeCode AgentOutcome.timedOut timeout parse runId livePath logs).1 = false ∧
    (invokeClaudeCode AgentOutcome.timedOut timeout parse runId livePath logs).2 =
      logs ++ [liveLogRow runId livePath, agentTimeoutRow runId timeout] := by
  refine ⟨rfl, rfl, rfl, ?_⟩
  show logs ++ [liveLogRow runId livePath] ++ [agentTimeoutRow runId timeout] = _
  rw [List.append_assoc]
  rfl

/-- Counterexample for C7 as stated: on a failed run whose persisted
`plan_md` is null (a plan-phase failure after cloning), the retry path
raises before writing, so no rewrite of `Plan.md` happens at all. -/
theorem retry_plan_null_not_rewritten :
    retryPlanRewrite (some "sb") true none emptyFs =
      RetryPlanOutcome.writeTypeError emptyFs ∧
    emptyFs ("sb" ++ "/Plan.md") = none :=
  ⟨rfl, rfl⟩

/-- C7 (amended).  Whenever the persisted `plan_md` is a (non-null)
string and the sandbox exists, the retry path rewrites `Plan.md` and
the content read back is exactly the persisted string. -/
theorem retry_plan_roundtrip (sb plan : String) (fs : FS) (hsb : sb ≠ "") :
    retryPlanRewrite (some sb) true (some plan) fs =
      RetryPlanOutcome.written (fsWrite fs (sb ++ "/Plan.md") plan) ∧
    fsWrite fs (sb ++ "/Plan.md") plan (sb ++ "/Plan.md") = some plan := by
  constructor
  · unfold retryPlanRewrite
    have ht : pyTruthy (some sb) = true := by simp [pyTruthy, hsb]
    simp [ht]
  · unfold fsWrite
    simp

/-- Witness for the amended C7 theorem at a concrete sandbox and plan. -/
theorem retry_plan_roundtrip_witness :
    retryPlanRewrite (some "sb") true (some "PLAN") emptyFs =
      RetryPlanOutcome.written (fsWrite emptyFs ("sb" ++ "/Plan.md") "PLAN") ∧
    fsWrite emptyFs ("sb" ++ "/Plan.md") "PLAN" ("sb" ++ "/Plan.md") = some "PLAN" :=
  retry_plan_roundtrip "sb" "PLAN" emptyFs (by decide)

end Nexus

namespace Nexus

lemma stale_fold_point (cands : List String) (ref : String) :
    ∀ (fs : FS) (acc : List String) (p : String),
      (cands.foldl (staleStep ref) (fs, acc)).1 p =
        (if p ∈ cands ∧ p ≠ ref then none else fs p) := by
  induction cands with
  | nil =>
    intro fs acc p
    simp
  | cons c cs ih =>
    intro fs acc p
    rw [List.foldl_cons]
    by_cases hcr : c = ref
    · have hstep : staleStep ref (fs, acc) c = (fs, acc) := by
        unfold staleStep
        simp [hcr]
      rw [hstep, ih]
      by_cases hp : p ∈ cs ∧ p ≠ ref
      · rw [if_pos hp, if_pos ⟨List.mem_cons_of_mem _ hp.1, hp.2⟩]
      · rw [if_neg hp]
        have hq : ¬(p ∈ c :: cs ∧ p ≠ ref) := by
          rintro ⟨hq1, hq2⟩
          rcases List.mem_cons.mp hq1 with h | h
          · exact hq2 (h.trans hcr)
          · exact hp ⟨h, hq2⟩
        rw [if_neg hq]
    · by_cases hex : (fs c).isSome = true
      · have hstep : staleStep ref (fs, acc) c = (fsRemove fs c, acc ++ [c]) := by
          unfold staleStep
          have h1 : (c == ref) = false := by simp [hcr]
          simp [h1, hex]
        rw [hstep, ih]
        by_cases hp : p ∈ cs ∧ p ≠ ref
        · rw [if_pos hp, if_pos ⟨List.mem_cons_of_mem _ hp.1, hp.2⟩]
        · rw [if_neg hp]
          by_cases hpc : p = c
          · have hrm : fsRemove fs c p = none := by simp [fsRemove, hpc]
            rw [hrm, if_pos ⟨by rw [hpc]; exact List.mem_cons_self c cs,
              by rw [hpc]; exact hcr⟩]
          · have hrm : fsRemove fs c p = fs p := by simp [fsRemove, hpc]
            rw [hrm]
            have hq : ¬(p ∈ c :: cs ∧ p ≠ ref) := by
              rintro ⟨hq1, hq2⟩
              rcases List.mem_cons.mp hq1 with h | h
              · exact hpc h
              · exact hp ⟨h, hq2⟩
            rw [if_neg hq]
      · have hstep : staleStep ref (fs, acc) c = (fs, acc) := by
          unfold staleStep
          have h2 : (fs c).isSome = false := by
            revert hex
            cases (fs c).isSome <;> simp
          simp [h2]
        have hfsc : fs c = none := by
          revert hex
          cases hfc : fs c <;> simp
        rw [hstep, ih]
        by_cases hp : p ∈ cs ∧ p ≠ ref
        · rw [if_pos hp, if_pos ⟨List.mem_cons_of_mem _ hp.1, hp.2⟩]
        · rw [if_neg hp]
          by_cases hq : p ∈ c :: cs ∧ p ≠ ref
          · have hpc : p = c := by
              rcases List.mem_cons.mp hq.1 with h | h
              · exact h
              · exact absurd ⟨h, hq.2⟩ hp
            rw [if_pos hq, hpc, hfsc]
          · rw [if_neg hq]

lemma stale_fold_removed (cands : List String) (ref : String) :
    ∀ (fs : FS) (acc : List String), ∀ q ∈ (cands.foldl (staleStep ref) (fs, acc)).2,
      q ∈ acc ∨ (q ∈ cands ∧ q ≠ ref ∧ (fs q).isSome = true) := by
  induction cands with
  | nil =>
    intro fs acc q hq
    exact Or.inl (by simpa using hq)
  | cons c cs ih =>
    intro fs acc q hq
    rw [List.foldl_cons] at hq
    by_cases hcond : (!(c == ref) && (fs c).isSome) = true
    · have hstep : staleStep ref (fs, acc) c = (fsRemove fs c, acc ++ [c]) := by
        unfold staleStep
        rw [if_pos hcond]
      rw [hstep] at hq
      have hcr : c ≠ ref := by
        have := ((Bool.and_eq_true _ _).mp hcond).1
        intro h
        rw [h] at this
        simp at this
      have hcs : (fs c).isSome = true := ((Bool.and_eq_true _ _).mp hcond).2
      rcases ih (fsRemove fs c) (acc ++ [c]) q hq with h | ⟨h1, h2, h3⟩
      · rcases List.mem_append.mp h with h | h
        · exact Or.inl h
        · have hqc : q = c := by simpa using h
          exact Or.inr ⟨by rw [hqc]; exact List.mem_cons_self c cs,
            by rw [hqc]; exact hcr, by rw [hqc]; exact hcs⟩
      · have hfs : (fs q).isSome = true := by
          by_cases hqc : q = c
          · rw [hqc]; exact hcs
          · have : fsRemove fs c q = fs q := by simp [fsRemove, hqc]
            rw [this] at h3
            exact h3
        exact Or.inr ⟨List.mem_cons_of_mem _ h1, h2, hfs⟩
    · have hstep : staleStep ref (fs, acc) c = (fs, acc) := by
        unfold staleStep
        rw [if_neg hcond]
      rw [hstep] at hq
      rcases ih fs acc q hq with h | ⟨h1, h2, h3⟩
      · exact Or.inl h
      · exact Or.inr ⟨List.mem_cons_of_mem _ h1, h2, h3⟩

/-- The current test path is always one of the three candidates. -/
lemma testFileRef_mem_candidates (language : Language) (slug : String) :
    testFileRef language slug ∈ staleTestCandidates slug := by
  cases language <;> simp [testFileRef, staleTestCandidates]

/-- C10.  The stale-test cleanup never unlinks the currently derived
test path: the file at `testFileRef` is untouched, paths outside the
candidate list are untouched, every other-language candidate ends up
absent, and everything recorded as removed was a non-current candidate
that existed. -/
theorem stale_cleanup_preserves_current_test (fs : FS) (language : Language)
    (slug : String) :
    testFileRef language slug ∈ staleTestCandidates slug ∧
    (removeStaleTests fs language slug).1 (testFileRef language slug) =
      fs (testFileRef language slug) ∧
    (∀ p, p ∉ staleTestCandidates slug → (removeStaleTests fs language slug).1 p = fs p) ∧
    (∀ p ∈ staleTestCandidates slug, p ≠ testFileRef language slug →
      (removeStaleTests fs language slug).1 p = none) ∧
    (∀ q ∈ (removeStaleTests fs language slug).2,
      q ∈ staleTestCandidates slug ∧ q ≠ testFileRef language slug ∧
        (fs q).isSome = true) := by
  have hpt := stale_fold_point (staleTestCandidates slug) (testFileRef language slug) fs []
  refine ⟨testFileRef_mem_candidates language slug, ?_, ?_, ?_, ?_⟩
  · show ((staleTestCandidates slug).foldl (staleStep (testFileRef language slug))
      (fs, [])).1 (testFileRef language slug) = _
    rw [hpt]
    simp
  · intro p hp
    show ((staleTestCandidates slug).foldl (staleStep (testFileRef language slug))
      (fs, [])).1 p = _
    rw [hpt]
    rw [if_neg (fun h => hp h.1)]
  · intro p hp hne
    show ((staleTestCandidates slug).foldl (staleStep (testFileRef language slug))
      (fs, [])).1 p = _
    rw [hpt]
    rw [if_pos ⟨hp, hne⟩]
  · intro q hq
    have := stale_fold_removed (staleTestCandidates slug) (testFileRef language slug)
      fs [] q hq
    rcases this with h | h
    · simp at h
    · exact h

/-- Witness for C10 at a filesystem holding a stale python test and the
current typescript test. -/
theorem stale_cleanup_witness :
    (removeStaleTests staleFsExample Language.typescript "feat").1
        (testFileRef Language.typescript "feat") =
      staleFsExample (testFileRef Language.typescript "feat") ∧
    (removeStaleTests staleFsExample Language.typescript "feat").1
        ("tests/test_" ++ "feat" ++ ".py") = none :=
  ⟨(stale_cleanup_preserves_current_test staleFsExample Language.typescript "feat").2.1,
   (stale_cleanup_preserves_current_test staleFsExample Language.typescript "feat").2.2.2.1
     ("tests/test_" ++ "feat" ++ ".py") (by simp [staleTestCandidates]) (by decide)⟩

end Nexus
